import Mathlib

/-!
Verification of the remote-execution and fleet-coordination engine of the
`mah` repository, as a shallow embedding in Lean 4.

The embedding follows the Go source:
- `internal/server/ssh.go` : the remote host handle (`SSHServer`): `Execute`,
  `TransferFile`, `GetDistro`, `GetResources`, `HealthCheck` and the
  resource-probe parsers;
- `internal/server/debian.go` and the Rocky operations file : the distro
  capability sets (`addFirewallRule`, `HardenSSH`);
- the nexus manager file : the fleet coordinator (`Manager.Status`,
  `Manager.ExecuteOnNexus`);
- the server factory file : distro detection gating.

Modelling conventions:
- Machine integers (Go `int`, `int64`) are modelled as `Int`; the values
  in scope (exit codes, byte counts, milliseconds) never approach 2^63,
  so no wrap-around is modelled.
- Go `float64` values (CPU usage, load averages) are modelled as exact
  rationals built with `mkRat`; no claim depends on floating-point rounding.
- Remote effects are modelled by oracles: a call to the SSH transport is a
  value of type `Except` supplied as input, and functions that issue several
  remote commands take an oracle `String → Except String Result` keyed by the
  literal command string.
- Go string helpers (`strings.TrimSpace`, `strings.Fields`, `strings.Split`,
  `strconv.Atoi`, ...) are re-implemented structurally over `List Char` so
  that all definitions evaluate inside the kernel.
-/

namespace Mah

/-! ## Go string helpers, re-implemented structurally -/

/-- Does the char list `s` start with the char list `pat`? (model of
`strings.HasPrefix` on the underlying runes). -/
def listStartsWith : List Char → List Char → Bool
  | _, [] => true
  | [], _ :: _ => false
  | a :: as, b :: bs => a = b && listStartsWith as bs

/-- Split a char list at every char satisfying `p`, keeping empty segments
(model of `strings.Split` for a one-char separator when `p` tests that
separator). -/
def splitOnCharP (p : Char → Bool) : List Char → List (List Char)
  | [] => [[]]
  | c :: cs =>
    let rest := splitOnCharP p cs
    if p c then [] :: rest
    else
      match rest with
      | r :: rs => (c :: r) :: rs
      | [] => [[c]]

/-- Model of `strings.Split(s, "\n")`. -/
def goLines (s : String) : List String :=
  (splitOnCharP (fun c => c = '\n') s.data).map String.mk

/-- Model of `strings.Fields`: split around runs of whitespace, dropping
empty segments. -/
def goFields (s : String) : List String :=
  ((splitOnCharP (fun c => c.isWhitespace) s.data).filter (fun w => w ≠ [])).map String.mk

/-- Model of `strings.TrimSpace`. -/
def goTrim (s : String) : String :=
  String.mk (((s.data.dropWhile Char.isWhitespace).reverse.dropWhile Char.isWhitespace).reverse)

/-- Numeric value of a list of decimal digit chars. -/
def digitsToNat (cs : List Char) : ℕ :=
  cs.foldl (fun a c => 10 * a + (c.toNat - 48)) 0

/-- Model of `strconv.Atoi` (and of `strconv.ParseInt(s, 10, 64)` on
non-overflowing inputs): optional sign followed by decimal digits. -/
def goAtoi? (s : String) : Option ℤ :=
  match s.data with
  | [] => none
  | '-' :: rest =>
    if rest ≠ [] ∧ rest.all Char.isDigit then some (-(digitsToNat rest : ℤ)) else none
  | '+' :: rest =>
    if rest ≠ [] ∧ rest.all Char.isDigit then some ((digitsToNat rest : ℤ)) else none
  | cs =>
    if cs.all Char.isDigit then some ((digitsToNat cs : ℤ)) else none

/-- Rational value of `intPart.fracPart` (decimal notation). -/
def decToQ (intPart fracPart : List Char) : ℚ :=
  mkRat (digitsToNat intPart * 10 ^ fracPart.length + digitsToNat fracPart : ℤ)
    (10 ^ fracPart.length)

/-- Model of `strconv.ParseFloat` restricted to plain decimal notation
(optional sign, digits, optional fractional part), the only notation the
probed utilities emit.  Floats are modelled as exact rationals. -/
def goParseFloat? (s : String) : Option ℚ :=
  let signed : Bool × List Char :=
    match s.data with
    | '-' :: rest => (true, rest)
    | '+' :: rest => (false, rest)
    | cs => (false, cs)
  let core : Option ℚ :=
    match (signed.2.span (fun c => c ≠ '.')) with
    | (intPart, []) =>
      if intPart ≠ [] ∧ intPart.all Char.isDigit then some ((digitsToNat intPart : ℤ) : ℚ)
      else none
    | (intPart, _ :: frac) =>
      if intPart ≠ [] ∧ frac ≠ [] ∧ intPart.all Char.isDigit ∧ frac.all Char.isDigit then
        some (decToQ intPart frac)
      else none
  match core with
  | none => none
  | some q => some (if signed.1 then -q else q)

/-- ASCII lower-casing of one char (model of `strings.ToLower` per rune). -/
def lcChar (c : Char) : Char :=
  if 'A' ≤ c ∧ c ≤ 'Z' then Char.ofNat (c.toNat + 32) else c

/-- Model of `strings.ToLower` (ASCII range, which covers the probed IDs). -/
def goToLower (s : String) : String :=
  String.mk (s.data.map lcChar)

/-- Model of `strings.Trim(s, "\x22")`: strip leading and trailing
double-quote chars. -/
def trimQuotes (s : String) : String :=
  String.mk (((s.data.dropWhile (fun c => c = '"')).reverse.dropWhile (fun c => c = '"')).reverse)

/-- Model of `strings.HasPrefix`. -/
def goHasPrefix (s pat : String) : Bool :=
  listStartsWith s.data pat.data

/-- Drop the first `n` chars (model of slicing `s[n:]` on ASCII input,
used for `strings.TrimPrefix(line, "ID=")`). -/
def goDrop (s : String) (n : ℕ) : String :=
  String.mk (s.data.drop n)

/-! ## Data model (`pkg/types.go`) -/

/-- Execution result of one remote command (`pkg.Result`,
`pkg/types.go`): exit status, captured stdout/stderr, wall-clock duration
in milliseconds. -/
structure Result where
  exitCode : ℤ
  stdout : String
  stderr : String
  duration : ℤ
  deriving Repr, DecidableEq

/-- CPU telemetry (`pkg.CPUInfo`). -/
structure CPUInfo where
  cores : ℤ
  usage : ℚ
  model : String
  arch : String
  deriving Repr, DecidableEq

/-- Memory telemetry (`pkg.MemoryInfo`), byte counts. -/
structure MemoryInfo where
  total : ℤ
  available : ℤ
  used : ℤ
  usage : ℚ
  deriving Repr, DecidableEq

/-- Disk telemetry (`pkg.DiskInfo`), byte counts for the root filesystem. -/
structure DiskInfo where
  total : ℤ
  available : ℤ
  used : ℤ
  usage : ℚ
  deriving Repr, DecidableEq

/-- Load averages (`pkg.LoadInfo`). -/
structure LoadInfo where
  load1 : ℚ
  load5 : ℚ
  load15 : ℚ
  deriving Repr, DecidableEq

/-- One telemetry snapshot (`pkg.ResourceInfo`). -/
structure ResourceInfo where
  cpu : CPUInfo
  memory : MemoryInfo
  disk : DiskInfo
  load : LoadInfo
  deriving Repr, DecidableEq

/-- Boolean success test for `Except` values (Go `err == nil`). -/
def exceptOk : Except ε α → Bool
  | .ok _ => true
  | .error _ => false

instance {ε α : Type} [DecidableEq ε] [DecidableEq α] : DecidableEq (Except ε α) := fun x y =>
  match x, y with
  | .ok a, .ok b =>
    if h : a = b then .isTrue (by rw [h]) else .isFalse (by intro hh; cases hh; exact h rfl)
  | .ok _, .error _ => .isFalse (by intro hh; cases hh)
  | .error _, .ok _ => .isFalse (by intro hh; cases hh)
  | .error a, .error b =>
    if h : a = b then .isTrue (by rw [h]) else .isFalse (by intro hh; cases hh; exact h rfl)

/-! ## The remote host handle: `SSHServer.Execute` (`internal/server/ssh.go:100-158`)

The environment of one `Execute` call gathers everything the surrounding
world decides: whether the handle is connected (`s.client != nil`), whether
`NewSession` succeeds, whether the calling context fires before the command
completes, and how `session.Run` ends together with what the sessions
captured on stdout/stderr.  -/

/-- How `session.Run(cmd)` ends: normally, with an `ssh.ExitError` carrying
the remote exit status, or with any other (transport-level) error. -/
inductive RunOutcome where
  | success
  | exitErr (code : ℤ)
  | otherErr (msg : String)
  deriving Repr, DecidableEq

/-- Errors `SSHServer.Execute` can return (`ssh.go:100-158`): the
not-connected guard, a session-creation failure, or the context's
cancellation error. -/
inductive ExecErr where
  | notConnected
  | sessionFailed (msg : String)
  | canceled (msg : String)
  deriving Repr, DecidableEq

/-- The per-call world of `SSHServer.Execute`, excluding the connection
flag which is threaded separately as handle state. -/
structure ExecuteEnv where
  sessionOk : Bool
  sessionErrMsg : String
  canceled : Bool
  ctxErrMsg : String
  runOutcome : RunOutcome
  capturedStdout : String
  capturedStderr : String
  durationMs : ℤ
  deriving Repr, DecidableEq

/-- Arguments of one `Execute` call together with the host's configured
privilege-escalation flag (`s.config.Sudo`). -/
structure ExecCall where
  cmd : String
  sudoArg : Bool
  cfgSudo : Bool
  deriving Repr, DecidableEq

/-- The command string actually handed to `session.Run` (`ssh.go:111-114`):
wrapped in the non-interactive elevation prefix exactly when both the call
asks for escalation and the host allows it. -/
def effectiveCommand (call : ExecCall) : String :=
  if call.sudoArg && call.cfgSudo then "sudo -n " ++ call.cmd else call.cmd

/-- Observable outcome of one `Execute` call: the returned
`(*pkg.Result, error)` pair, the command string passed to `session.Run`
(`none` when no session was ever started), and whether the remote process
was sent a kill signal. -/
structure ExecOutput where
  result : Except ExecErr Result
  ranCommand : Option String
  sentKill : Bool
  deriving Repr, DecidableEq

/-- Shallow embedding of `SSHServer.Execute` (`ssh.go:100-158`).
Control flow of the source: nil-client guard, `NewSession`, sudo wrap,
`session.Run` in a goroutine, then a select between context cancellation
(kill signal, return `ctx.Err()`) and command completion.  On completion a
`Result` is always returned with `err == nil`; an `ssh.ExitError` sets the
exit status, any other run error yields exit status 1 with the error text
in `Stderr` when the captured stderr was empty. -/
def SSHServer.Execute (connected : Bool) (call : ExecCall) (env : ExecuteEnv) : ExecOutput :=
  if connected = false then
    { result := .error .notConnected, ranCommand := none, sentKill := false }
  else if env.sessionOk = false then
    { result := .error (.sessionFailed env.sessionErrMsg), ranCommand := none, sentKill := false }
  else
    let cmd := effectiveCommand call
    if env.canceled then
      { result := .error (.canceled env.ctxErrMsg), ranCommand := some cmd, sentKill := true }
    else
      let res : Result :=
        match env.runOutcome with
        | .success =>
          { exitCode := 0, stdout := env.capturedStdout, stderr := env.capturedStderr,
            duration := env.durationMs }
        | .exitErr code =>
          { exitCode := code, stdout := env.capturedStdout, stderr := env.capturedStderr,
            duration := env.durationMs }
        | .otherErr msg =>
          { exitCode := 1, stdout := env.capturedStdout,
            stderr := if env.capturedStderr = "" then msg else env.capturedStderr,
            duration := env.durationMs }
      { result := .ok res, ranCommand := some cmd, sentKill := false }

/-- Handle state visible to `Execute`/`TransferFile`: whether
`s.client != nil`.  Neither method assigns to the handle's fields in the
source, which the state-passing wrappers below make explicit. -/
structure Handle where
  connected : Bool
  deriving Repr, DecidableEq

/-- State-passing wrapper for `Execute`: the source never writes `s.client`
or `s.conn` inside `Execute`, so the handle state is returned unchanged. -/
def SSHServer.ExecuteSt (h : Handle) (call : ExecCall) (env : ExecuteEnv) :
    Handle × ExecOutput :=
  (h, SSHServer.Execute h.connected call env)

/-- Errors of `SSHServer.TransferFile` (`ssh.go:161-215`). -/
inductive TransferErr where
  | notConnected
  | sftpClient (msg : String)
  | localOpen (msg : String)
  | localStat (msg : String)
  | mkdir (msg : String)
  | createRemote (msg : String)
  | copyData (msg : String)
  | chmod (msg : String)
  deriving Repr, DecidableEq

/-- Per-call world of `TransferFile`: outcome of each SFTP/file step, plus
whether the remote directory is `"."` (in which case `MkdirAll` is
skipped). -/
structure TransferEnv where
  sftpOk : Except String Unit
  localOpenOk : Except String Unit
  localStatOk : Except String Unit
  remoteDirIsDot : Bool
  mkdirOk : Except String Unit
  createOk : Except String Unit
  copyOk : Except String Unit
  chmodOk : Except String Unit
  deriving Repr, DecidableEq

/-- Shallow embedding of `SSHServer.TransferFile` (`ssh.go:161-215`):
nil-client guard, then the sequence of SFTP steps, each aborting on its
error. -/
def SSHServer.TransferFile (connected : Bool) (env : TransferEnv) : Except TransferErr Unit :=
  if connected = false then .error .notConnected
  else
    match env.sftpOk with
    | .error e => .error (.sftpClient e)
    | .ok _ =>
      match env.localOpenOk with
      | .error e => .error (.localOpen e)
      | .ok _ =>
        match env.localStatOk with
        | .error e => .error (.localStat e)
        | .ok _ =>
          let afterMkdir : Except TransferErr Unit :=
            if env.remoteDirIsDot then .ok ()
            else
              match env.mkdirOk with
              | .error e => .error (.mkdir e)
              | .ok _ => .ok ()
          match afterMkdir with
          | .error e => .error e
          | .ok _ =>
            match env.createOk with
            | .error e => .error (.createRemote e)
            | .ok _ =>
              match env.copyOk with
              | .error e => .error (.copyData e)
              | .ok _ =>
                match env.chmodOk with
                | .error e => .error (.chmod e)
                | .ok _ => .ok ()

/-- State-passing wrapper for `TransferFile`: the source never writes the
handle's fields inside `TransferFile`. -/
def SSHServer.TransferFileSt (h : Handle) (env : TransferEnv) :
    Handle × Except TransferErr Unit :=
  (h, SSHServer.TransferFile h.connected env)

/-! ## Claim theorems for the host handle -/

/-- Concrete environment of a command that completed with exit status 7. -/
def envDone : ExecuteEnv :=
  { sessionOk := true, sessionErrMsg := "", canceled := false, ctxErrMsg := "",
    runOutcome := .exitErr 7, capturedStdout := "out", capturedStderr := "", durationMs := 5 }

/-- Concrete environment of a call whose context was canceled mid-command. -/
def envCanc : ExecuteEnv :=
  { envDone with canceled := true, ctxErrMsg := "context canceled" }

/-- Concrete call without escalation. -/
def call0 : ExecCall := { cmd := "true", sudoArg := false, cfgSudo := true }

/-- C3: on a connected handle, a completed command always yields an
`Execution Result` with no error, whatever the run outcome (non-zero exit
included); an error is returned only when the handle was not connected, the
session could not be created (transport), or the context was canceled; and
on cancellation the remote process is sent a kill signal and the call
returns exactly the cancellation error, never a partial result. -/
theorem execute_result_contract (connected : Bool) (call : ExecCall) (env : ExecuteEnv) :
    (connected = true → env.sessionOk = true → env.canceled = false →
      ∃ r, (SSHServer.Execute connected call env).result = .ok r) ∧
    (∀ e, (SSHServer.Execute connected call env).result = .error e →
      connected = false ∨ env.sessionOk = false ∨ env.canceled = true) ∧
    (connected = true → env.sessionOk = true → env.canceled = true →
      (SSHServer.Execute connected call env).result = .error (.canceled env.ctxErrMsg) ∧
      (SSHServer.Execute connected call env).sentKill = true) := by
  obtain ⟨sOk, sMsg, canc, cMsg, ro, cout, cerr, dur⟩ := env
  cases connected <;> cases sOk <;> cases canc <;>
    simp [SSHServer.Execute, effectiveCommand]

/-- Witness for `execute_result_contract` at concrete inputs. -/
theorem execute_result_contract_witness :
    (∃ r, (SSHServer.Execute true call0 envDone).result = .ok r) ∧
    ((SSHServer.Execute true call0 envCanc).result = .error (.canceled "context canceled") ∧
      (SSHServer.Execute true call0 envCanc).sentKill = true) :=
  ⟨(execute_result_contract true call0 envDone).1 rfl rfl rfl,
   (execute_result_contract true call0 envCanc).2.2 rfl rfl rfl⟩

/-- C6: when the call asks for escalation and the host allows it, the
command handed to the session is wrapped with the non-interactive elevation
prefix; when the host disallows escalation the flag is a silent no-op: the
effective command is unchanged and the whole call behaves exactly as the
unescalated call (in particular, no error is produced by the downgrade). -/
theorem escalate_wrap_or_noop (connected : Bool) (call : ExecCall) (env : ExecuteEnv) :
    (call.sudoArg = true → call.cfgSudo = true →
      effectiveCommand call = "sudo -n " ++ call.cmd) ∧
    (call.cfgSudo = false → effectiveCommand call = call.cmd) ∧
    (call.cfgSudo = false →
      SSHServer.Execute connected call env =
        SSHServer.Execute connected { call with sudoArg := false } env) := by
  obtain ⟨cmd, sa, cs⟩ := call
  cases sa <;> cases cs <;> simp [effectiveCommand, SSHServer.Execute]

/-- Concrete escalated call on a host that allows escalation. -/
def callEsc : ExecCall := { cmd := "ls", sudoArg := true, cfgSudo := true }

/-- Concrete escalated call on a host that disallows escalation. -/
def callNoEsc : ExecCall := { cmd := "ls", sudoArg := true, cfgSudo := false }

/-- Witness for `escalate_wrap_or_noop` at concrete inputs. -/
theorem escalate_wrap_or_noop_witness :
    effectiveCommand callEsc = "sudo -n ls" ∧ effectiveCommand callNoEsc = "ls" ∧
    SSHServer.Execute true callNoEsc envDone =
      SSHServer.Execute true { callNoEsc with sudoArg := false } envDone :=
  ⟨(escalate_wrap_or_noop true callEsc envDone).1 rfl rfl,
   (escalate_wrap_or_noop true callNoEsc envDone).2.1 rfl,
   (escalate_wrap_or_noop true callNoEsc envDone).2.2 rfl⟩

/-- C9: on a handle that is not connected, executing a command and
transferring a file both fail with the not-connected error, and both leave
the handle's state unchanged. -/
theorem notConnected_guard (h : Handle) (call : ExecCall) (env : ExecuteEnv)
    (tenv : TransferEnv) (hc : h.connected = false) :
    (SSHServer.ExecuteSt h call env).1 = h ∧
    (SSHServer.ExecuteSt h call env).2.result = .error .notConnected ∧
    (SSHServer.TransferFileSt h tenv).1 = h ∧
    (SSHServer.TransferFileSt h tenv).2 = .error .notConnected := by
  refine ⟨rfl, ?_, rfl, ?_⟩ <;>
    simp [SSHServer.ExecuteSt, SSHServer.TransferFileSt, SSHServer.Execute,
      SSHServer.TransferFile, hc]

/-- Concrete transfer environment where every step would succeed. -/
def tenv0 : TransferEnv :=
  { sftpOk := .ok (), localOpenOk := .ok (), localStatOk := .ok (), remoteDirIsDot := false,
    mkdirOk := .ok (), createOk := .ok (), copyOk := .ok (), chmodOk := .ok () }

/-- Witness for `notConnected_guard` at concrete inputs. -/
theorem notConnected_guard_witness :
    (SSHServer.ExecuteSt { connected := false } call0 envDone).1 = { connected := false } ∧
    (SSHServer.ExecuteSt { connected := false } call0 envDone).2.result =
      .error .notConnected ∧
    (SSHServer.TransferFileSt { connected := false } tenv0).1 = { connected := false } ∧
    (SSHServer.TransferFileSt { connected := false } tenv0).2 = .error .notConnected :=
  notConnected_guard { connected := false } call0 envDone tenv0 rfl

/-- C10: when `session.Run` fails with an error that is not an exit-status
error, `Execute` still returns `err == nil` together with a synthetic
result whose exit status is 1 and whose stderr is the error text when the
captured stderr was empty; at the interface the call is indistinguishable
from a command that exited with status 1 writing that text to stderr. -/
theorem transport_error_masked_as_exit1 (connected : Bool) (call : ExecCall)
    (env : ExecuteEnv) (msg : String)
    (hc : connected = true) (hs : env.sessionOk = true) (hk : env.canceled = false)
    (hr : env.runOutcome = .otherErr msg) :
    (∃ r, (SSHServer.Execute connected call env).result = .ok r ∧ r.exitCode = 1 ∧
      (env.capturedStderr = "" → r.stderr = msg)) ∧
    SSHServer.Execute connected call
        { env with capturedStderr := "", runOutcome := .otherErr msg } =
      SSHServer.Execute connected call
        { env with capturedStderr := msg, runOutcome := .exitErr 1 } := by
  obtain ⟨sOk, sMsg, canc, cMsg, ro, cout, cerr, dur⟩ := env
  subst hc; subst hs; subst hk; subst hr
  constructor
  · refine ⟨_, rfl, rfl, ?_⟩
    intro hcerr
    have hc2 : cerr = "" := hcerr
    simp [SSHServer.Execute, hc2]
  · simp [SSHServer.Execute]

/-- Concrete environment where the transport failed mid-command. -/
def envTransport : ExecuteEnv :=
  { envDone with runOutcome := .otherErr "ssh: connection lost" }

/-- Witness for `transport_error_masked_as_exit1` at concrete inputs. -/
theorem transport_error_masked_as_exit1_witness :
    (∃ r, (SSHServer.Execute true call0 envTransport).result = .ok r ∧ r.exitCode = 1 ∧
      (envTransport.capturedStderr = "" → r.stderr = "ssh: connection lost")) ∧
    SSHServer.Execute true call0
        { envTransport with
          capturedStderr := ""
          runOutcome := .otherErr "ssh: connection lost" } =
      SSHServer.Execute true call0
        { envTransport with
          capturedStderr := "ssh: connection lost"
          runOutcome := .exitErr 1 } :=
  transport_error_masked_as_exit1 true call0 envTransport "ssh: connection lost" rfl rfl rfl rfl

/-! ## Telemetry probes (`ssh.go:252-284` and `ssh.go:330-461`)

The probes all go through `s.Execute`; the embedding abstracts the
transport as an oracle from the literal command string to the `Execute`
outcome (error, or a `Result`). -/

/-- Probe command for the core count (`ssh.go:332`). -/
def nprocCmd : String := "nproc"

/-- Probe command for the instantaneous CPU utilization (`ssh.go:344`). -/
def cpuUsageCmd : String :=
  "top -bn1 | grep \x27Cpu(s)\x27 | sed \x27s/.*, *\\([0-9.]*\\)%* id.*/\\1/\x27 | awk \x27\x7bprint 100 - $1\x7d\x27"

/-- Probe command for the CPU model (`ssh.go:353`). -/
def cpuModelCmd : String :=
  "cat /proc/cpuinfo | grep \x27model name\x27 | head -1 | cut -d: -f2 | sed \x27s/^ *//\x27"

/-- Probe command for the architecture (`ssh.go:360`). -/
def archCmd : String := "uname -m"

/-- Probe command for memory (`ssh.go:374`). -/
def freeCmd : String := "free -b"

/-- Probe command for root-filesystem disk usage (`ssh.go:408`). -/
def dfCmd : String := "df -B1 /"

/-- Probe command for load averages (`ssh.go:442`). -/
def loadavgCmd : String := "cat /proc/loadavg"

/-- Shallow embedding of `SSHServer.getCPUInfo` (`ssh.go:330-371`).  Only a
failure of the `nproc` execution is an error; an unparsable core count
falls back to 1, and failures or unparsable output of the usage, model and
architecture probes fall back to `0.0` / `"Unknown"`. -/
def SSHServer.getCPUInfo (exec : String → Except String Result) : Except String CPUInfo :=
  match exec nprocCmd with
  | .error e => .error e
  | .ok r =>
    let cores : ℤ :=
      match goAtoi? (goTrim r.stdout) with
      | some n => n
      | none => 1
    let usage : ℚ :=
      match exec cpuUsageCmd with
      | .ok r2 =>
        if r2.exitCode = 0 then
          match goParseFloat? (goTrim r2.stdout) with
          | some u => u
          | none => 0
        else 0
      | .error _ => 0
    let model : String :=
      match exec cpuModelCmd with
      | .ok r3 => if r3.exitCode = 0 ∧ r3.stdout ≠ "" then goTrim r3.stdout else "Unknown"
      | .error _ => "Unknown"
    let arch : String :=
      match exec archCmd with
      | .ok r4 => if r4.exitCode = 0 then goTrim r4.stdout else "Unknown"
      | .error _ => "Unknown"
    .ok { cores := cores, usage := usage, model := model, arch := arch }

/-- Shallow embedding of `SSHServer.getMemoryInfo` (`ssh.go:373-405`):
structural malformation (fewer than two lines, fewer than seven fields) is
an error; the numeric fields themselves are read with
`strconv.ParseInt(_, 10, 64)` whose error is discarded, so an unparsable
field silently becomes 0. -/
def SSHServer.getMemoryInfo (exec : String → Except String Result) : Except String MemoryInfo :=
  match exec freeCmd with
  | .error e => .error e
  | .ok r =>
    let lines := goLines r.stdout
    if lines.length < 2 then .error "unexpected free command output"
    else
      let fields := goFields (lines.getD 1 "")
      if fields.length < 7 then .error "unexpected free command format"
      else
        let total := (goAtoi? (fields.getD 1 "")).getD 0
        let used := (goAtoi? (fields.getD 2 "")).getD 0
        let available := (goAtoi? (fields.getD 6 "")).getD 0
        let usage : ℚ := if 0 < total then mkRat (used * 100) total.toNat else 0
        .ok { total := total, available := available, used := used, usage := usage }

/-- Shallow embedding of `SSHServer.getDiskInfo` (`ssh.go:407-439`), same
error discipline as the memory probe. -/
def SSHServer.getDiskInfo (exec : String → Except String Result) : Except String DiskInfo :=
  match exec dfCmd with
  | .error e => .error e
  | .ok r =>
    let lines := goLines r.stdout
    if lines.length < 2 then .error "unexpected df command output"
    else
      let fields := goFields (lines.getD 1 "")
      if fields.length < 4 then .error "unexpected df command format"
      else
        let total := (goAtoi? (fields.getD 1 "")).getD 0
        let used := (goAtoi? (fields.getD 2 "")).getD 0
        let available := (goAtoi? (fields.getD 3 "")).getD 0
        let usage : ℚ := if 0 < total then mkRat (used * 100) total.toNat else 0
        .ok { total := total, available := available, used := used, usage := usage }

/-- Shallow embedding of `SSHServer.getLoadInfo` (`ssh.go:441-461`): fewer
than three fields is an error; unparsable fields silently become 0. -/
def SSHServer.getLoadInfo (exec : String → Except String Result) : Except String LoadInfo :=
  match exec loadavgCmd with
  | .error e => .error e
  | .ok r =>
    let fields := goFields r.stdout
    if fields.length < 3 then .error "unexpected loadavg format"
    else
      .ok { load1 := (goParseFloat? (fields.getD 0 "")).getD 0,
            load5 := (goParseFloat? (fields.getD 1 "")).getD 0,
            load15 := (goParseFloat? (fields.getD 2 "")).getD 0 }

/-- Shallow embedding of `SSHServer.GetResources` (`ssh.go:252-284`): the
four sub-probes run in order, the first failing one aborts the whole call
with a wrapped error, and a snapshot is returned only when all four
succeeded. -/
def SSHServer.GetResources (exec : String → Except String Result) :
    Except String ResourceInfo :=
  match SSHServer.getCPUInfo exec with
  | .error e => .error ("failed to get CPU info: " ++ e)
  | .ok cpu =>
    match SSHServer.getMemoryInfo exec with
    | .error e => .error ("failed to get memory info: " ++ e)
    | .ok memory =>
      match SSHServer.getDiskInfo exec with
      | .error e => .error ("failed to get disk info: " ++ e)
      | .ok disk =>
        match SSHServer.getLoadInfo exec with
        | .error e => .error ("failed to get load info: " ++ e)
        | .ok load => .ok { cpu := cpu, memory := memory, disk := disk, load := load }

/-- Successful probe output with the given stdout. -/
def okOut (s : String) : Except String Result :=
  .ok { exitCode := 0, stdout := s, stderr := "", duration := 0 }

/-- Concrete probe oracle on which every probe succeeds but the core-count
output `"abc"` fails to parse. -/
def probeEnvBadNproc : String → Except String Result := fun c =>
  if c = nprocCmd then okOut "abc"
  else if c = cpuUsageCmd then okOut "12.5"
  else if c = cpuModelCmd then okOut "Fake CPU"
  else if c = archCmd then okOut "x86_64"
  else if c = freeCmd then okOut ("header" ++ "\n" ++ "Mem: 100 50 10 0 0 40")
  else if c = dfCmd then okOut ("header" ++ "\n" ++ "/dev/root 1000 400 600 40% /")
  else if c = loadavgCmd then okOut "0.5 0.25 0.1 1/100 123"
  else .error "unexpected command"

/-- Concrete probe oracle where the `nproc` execution itself fails. -/
def probeEnvExecFail : String → Except String Result := fun c =>
  if c = nprocCmd then .error "boom" else okOut ""

/-- Core count of a snapshot outcome, when present. -/
def snapshotCores : Except String ResourceInfo → Option ℤ
  | .ok info => some info.cpu.cores
  | .error _ => none

/-- C4 counterexample: with every probe executing successfully but the
core-count output unparsable (`"abc"`), `GetResources` does NOT surface an
error — it returns a full snapshot with the fallback core count 1 — so a
probe parse failure does not always fail the whole call as the claim
states. -/
theorem getResources_parse_fallback_counterexample :
    exceptOk (SSHServer.GetResources probeEnvBadNproc) = true ∧
    snapshotCores (SSHServer.GetResources probeEnvBadNproc) = some 1 := by
  constructor <;> decide

/-- C4 amended: a snapshot is returned only when all four sub-probes
succeed, and it is exactly their combination (no partial snapshot ever
escapes); an error is returned exactly when some sub-probe failed; a probe
EXECUTION failure (here: `nproc`) does fail the whole call; but a parse
failure of the core count does not — `getCPUInfo` succeeds whenever the
`nproc` execution succeeds, falling back to 1 core. -/
theorem getResources_atomic_with_fallbacks (exec : String → Except String Result) :
    (∀ info, SSHServer.GetResources exec = .ok info →
      SSHServer.getCPUInfo exec = .ok info.cpu ∧
      SSHServer.getMemoryInfo exec = .ok info.memory ∧
      SSHServer.getDiskInfo exec = .ok info.disk ∧
      SSHServer.getLoadInfo exec = .ok info.load) ∧
    (∀ e, SSHServer.GetResources exec = .error e →
      exceptOk (SSHServer.getCPUInfo exec) = false ∨
      exceptOk (SSHServer.getMemoryInfo exec) = false ∨
      exceptOk (SSHServer.getDiskInfo exec) = false ∨
      exceptOk (SSHServer.getLoadInfo exec) = false) ∧
    (∀ e, exec nprocCmd = .error e →
      SSHServer.GetResources exec = .error ("failed to get CPU info: " ++ e)) ∧
    (∀ r, exec nprocCmd = .ok r → exceptOk (SSHServer.getCPUInfo exec) = true) := by
  refine ⟨?_, ?_, ?_, ?_⟩
  · intro info h
    cases hcpu : SSHServer.getCPUInfo exec with
    | error e => simp [SSHServer.GetResources, hcpu] at h
    | ok cpu =>
      cases hmem : SSHServer.getMemoryInfo exec with
      | error e => simp [SSHServer.GetResources, hcpu, hmem] at h
      | ok memory =>
        cases hdisk : SSHServer.getDiskInfo exec with
        | error e => simp [SSHServer.GetResources, hcpu, hmem, hdisk] at h
        | ok disk =>
          cases hload : SSHServer.getLoadInfo exec with
          | error e => simp [SSHServer.GetResources, hcpu, hmem, hdisk, hload] at h
          | ok load =>
            simp only [SSHServer.GetResources, hcpu, hmem, hdisk, hload] at h
            cases h
            simp
  · intro e h
    cases hcpu : SSHServer.getCPUInfo exec with
    | error e2 => simp [exceptOk, hcpu]
    | ok cpu =>
      cases hmem : SSHServer.getMemoryInfo exec with
      | error e2 => simp [exceptOk, hmem]
      | ok memory =>
        cases hdisk : SSHServer.getDiskInfo exec with
        | error e2 => simp [exceptOk, hdisk]
        | ok disk =>
          cases hload : SSHServer.getLoadInfo exec with
          | error e2 => simp [exceptOk, hload]
          | ok load => simp [SSHServer.GetResources, hcpu, hmem, hdisk, hload] at h
  · intro e h
    simp [SSHServer.GetResources, SSHServer.getCPUInfo, h]
  · intro r h
    simp [SSHServer.getCPUInfo, h, exceptOk]

/-- Witness for `getResources_atomic_with_fallbacks` at concrete oracles:
an execution failure of `nproc` fails the whole call, and a successful
`nproc` execution always yields a CPU record. -/
theorem getResources_atomic_with_fallbacks_witness :
    SSHServer.GetResources probeEnvExecFail = .error ("failed to get CPU info: " ++ "boom") ∧
    exceptOk (SSHServer.getCPUInfo probeEnvBadNproc) = true :=
  ⟨(getResources_atomic_with_fallbacks probeEnvExecFail).2.2.1 "boom" rfl,
   (getResources_atomic_with_fallbacks probeEnvBadNproc).2.2.2
     { exitCode := 0, stdout := "abc", stderr := "", duration := 0 } rfl⟩

/-! ## Fleet coordinator (nexus manager file)

`Manager.ExecuteOnNexus` fans the command out to every member, each
goroutine sending exactly one `(serverID, result, error)` message on the
channel; the collector folds the messages into the outcome map.  The
embedding takes the channel's arrival order as an input list holding each
member's identity and `Execute` outcome. -/

/-- Synthetic failed result built for a host whose execution errored
(nexus manager, `results[result.serverID] = &pkg.Result{ExitCode: -1,
Stderr: result.error.Error()}`). -/
def errResult (e : String) : Result :=
  { exitCode := -1, stdout := "", stderr := e, duration := 0 }

/-- Map-insertion semantics of `results[serverID] = value` on a Go map,
rendered on an association list: overwrite the key if present, append
otherwise. -/
def insertResult (m : List (String × Result)) (k : String) (v : Result) :
    List (String × Result) :=
  if m.any (fun p => p.1 == k) then m.map (fun p => if p.1 = k then (k, v) else p)
  else m ++ [(k, v)]

/-- One iteration of the collection loop of `Manager.ExecuteOnNexus`: an
execution error is converted into the synthetic failed result and
remembered as `lastError`; a success is stored as-is. -/
def collectStep (acc : List (String × Result) × Option String)
    (p : String × Except String Result) : List (String × Result) × Option String :=
  match p.2 with
  | .ok r => (insertResult acc.1 p.1 r, acc.2)
  | .error e => (insertResult acc.1 p.1 (errResult e), some e)

/-- Shallow embedding of `Manager.ExecuteOnNexus` (collection phase): fold
the per-host outcomes into the map, then wrap the last error, if any, into
the summary error returned alongside the complete map. -/
def Manager.ExecuteOnNexus (outs : List (String × Except String Result)) :
    List (String × Result) × Option String :=
  let acc := outs.foldl collectStep ([], none)
  (acc.1, acc.2.map (fun e => "command execution failed on some servers: " ++ e))

/-- The map entry produced for one host's outcome. -/
def outcomeEntry (p : String × Except String Result) : String × Result :=
  (p.1, match p.2 with | .ok r => r | .error e => errResult e)

/-- Boolean test for a failed outcome. -/
def isErrOutcome : Except String Result → Bool
  | .ok _ => false
  | .error _ => true

lemma insertResult_fresh (m : List (String × Result)) (k : String) (v : Result)
    (h : ∀ q ∈ m, q.1 ≠ k) : insertResult m k v = m ++ [(k, v)] := by
  have hany : m.any (fun q => q.1 == k) = false := by
    rw [List.any_eq_false]
    intro q hq
    simpa using h q hq
  simp [insertResult, hany]

lemma collect_fold_map (outs : List (String × Except String Result)) :
    ∀ (m0 : List (String × Result)) (e0 : Option String),
      (∀ k ∈ outs.map Prod.fst, ∀ q ∈ m0, q.1 ≠ k) →
      (outs.map Prod.fst).Nodup →
      (outs.foldl collectStep (m0, e0)).1 = m0 ++ outs.map outcomeEntry := by
  induction outs with
  | nil => intro m0 e0 _ _; simp
  | cons p rest ih =>
    intro m0 e0 hfresh hnd
    rw [List.map_cons, List.nodup_cons] at hnd
    obtain ⟨hpnotin, hnd'⟩ := hnd
    have hstep : ∀ v, insertResult m0 p.1 v = m0 ++ [(p.1, v)] := fun v =>
      insertResult_fresh m0 p.1 v (hfresh p.1 (by simp))
    have hfresh' : ∀ v, ∀ k ∈ rest.map Prod.fst, ∀ q ∈ m0 ++ [(p.1, v)], q.1 ≠ k := by
      intro v k hk q hq
      rcases List.mem_append.mp hq with hq | hq
      · exact hfresh k (by simp [hk]) q hq
      · have hq1 : q = (p.1, v) := by simpa using hq
        rw [hq1]
        intro hcontra
        exact hpnotin (hcontra ▸ hk)
    cases hp : p.2 with
    | ok r =>
      have h1 : collectStep (m0, e0) p = (m0 ++ [(p.1, r)], e0) := by
        simp [collectStep, hp, hstep]
      rw [List.foldl_cons, h1, ih _ _ (hfresh' r) hnd']
      simp [outcomeEntry, hp]
    | error e =>
      have h1 : collectStep (m0, e0) p = (m0 ++ [(p.1, errResult e)], some e) := by
        simp [collectStep, hp, hstep]
      rw [List.foldl_cons, h1, ih _ _ (hfresh' (errResult e)) hnd']
      simp [outcomeEntry, hp]

lemma collect_fold_err (outs : List (String × Except String Result)) :
    ∀ (m0 : List (String × Result)) (e0 : Option String),
      ((outs.foldl collectStep (m0, e0)).2 = none) ↔
        (e0 = none ∧ ∀ p ∈ outs, isErrOutcome p.2 = false) := by
  induction outs with
  | nil => intro m0 e0; simp
  | cons p rest ih =>
    intro m0 e0
    cases hp : p.2 with
    | ok r =>
      have h1 : collectStep (m0, e0) p = (insertResult m0 p.1 r, e0) := by
        simp [collectStep, hp]
      rw [List.foldl_cons, h1, ih]
      simp only [List.mem_cons]
      constructor
      · rintro ⟨he, hall⟩
        refine ⟨he, ?_⟩
        rintro q (hq | hq)
        · rw [hq, hp]; rfl
        · exact hall q hq
      · rintro ⟨he, hall⟩
        exact ⟨he, fun q hq => hall q (Or.inr hq)⟩
    | error e =>
      have h1 : collectStep (m0, e0) p = (insertResult m0 p.1 (errResult e), some e) := by
        simp [collectStep, hp]
      rw [List.foldl_cons, h1, ih]
      constructor
      · rintro ⟨he, _⟩
        exact absurd he (by simp)
      · rintro ⟨_, hall⟩
        have := hall p (by simp)
        rw [hp] at this
        exact absurd this (by simp [isErrOutcome])

/-- C1: on a nexus with N member hosts (pairwise distinct identities, as
the fleet outcome map is keyed by identity), `ExecuteOnNexus` returns an
outcome map with exactly N entries whose keys are exactly the member
identities, regardless of how many hosts failed; each failed host gets the
synthetic result `errResult` (sentinel exit status -1, error text in the
captured-error field); and the summary error is absent exactly when no
host failed — on any failure the full map is still returned together with
the summary error. -/
theorem executeOnNexus_outcome_map (outs : List (String × Except String Result))
    (hnd : (outs.map Prod.fst).Nodup) :
    ((Manager.ExecuteOnNexus outs).1.map Prod.fst = outs.map Prod.fst) ∧
    ((Manager.ExecuteOnNexus outs).1.length = outs.length) ∧
    (∀ k e, (k, Except.error e) ∈ outs → (k, errResult e) ∈ (Manager.ExecuteOnNexus outs).1) ∧
    (((Manager.ExecuteOnNexus outs).2 = none) ↔ ∀ p ∈ outs, isErrOutcome p.2 = false) := by
  have hmap : (Manager.ExecuteOnNexus outs).1 = outs.map outcomeEntry := by
    have := collect_fold_map outs [] none (by simp) hnd
    simpa [Manager.ExecuteOnNexus] using this
  refine ⟨?_, ?_, ?_, ?_⟩
  · rw [hmap, List.map_map]
    have : Prod.fst ∘ outcomeEntry = Prod.fst := by
      funext p
      simp [outcomeEntry]
    rw [this]
  · rw [hmap, List.length_map]
  · intro k e hk
    rw [hmap]
    exact List.mem_map.mpr ⟨(k, .error e), hk, rfl⟩
  · have herr := collect_fold_err outs [] none
    simp only [Manager.ExecuteOnNexus, Option.map_eq_none']
    rw [herr]
    simp

/-- Concrete arrival list: host `a` succeeded with exit 0, host `b`'s
execution failed. -/
def outsDemo : List (String × Except String Result) :=
  [("a", .ok { exitCode := 0, stdout := "ok", stderr := "", duration := 3 }),
   ("b", .error "dial tcp: connection refused")]

/-- Witness for `executeOnNexus_outcome_map` at a concrete arrival list
with one failed host. -/
theorem executeOnNexus_outcome_map_witness :
    ((Manager.ExecuteOnNexus outsDemo).1.map Prod.fst = outsDemo.map Prod.fst) ∧
    ((Manager.ExecuteOnNexus outsDemo).1.length = outsDemo.length) ∧
    (∀ k e, (k, Except.error e) ∈ outsDemo →
      (k, errResult e) ∈ (Manager.ExecuteOnNexus outsDemo).1) ∧
    (((Manager.ExecuteOnNexus outsDemo).2 = none) ↔
      ∀ p ∈ outsDemo, isErrOutcome p.2 = false) :=
  executeOnNexus_outcome_map outsDemo (by decide)

/-! ## `Manager.Status` (nexus manager file, lines 150-209) -/

/-- One member host as `Manager.Status` observes it: its identity and the
outcomes of its `HealthCheck` and `GetResources` calls. -/
structure ServerProbe where
  id : String
  healthCheck : Except String Unit
  getResources : Except String ResourceInfo
  deriving DecidableEq

/-- Per-server status record (`nexus.ServerStatus`). -/
structure ServerStatus where
  online : Bool
  resources : Option ResourceInfo
  error : String
  deriving Repr, DecidableEq

/-- Per-server goroutine body of `Manager.Status`: a failed health check
marks the host offline and records the error text; on a healthy host
`GetResources` is consulted and its failure is ignored (resources simply
stay absent).  The second component records whether `GetResources` was
invoked at all. -/
def checkServer (srv : ServerProbe) : ServerStatus × Bool :=
  match srv.healthCheck with
  | .error e => ({ online := false, resources := none, error := e }, false)
  | .ok _ =>
    match srv.getResources with
    | .ok r => ({ online := true, resources := some r, error := "" }, true)
    | .error _ => ({ online := true, resources := none, error := "" }, true)

/-- Nexus status report (`nexus.Status`). -/
structure NexusStatus where
  healthy : Bool
  serversOnline : ℕ
  serversTotal : ℕ
  serverStatuses : List (String × ServerStatus)

/-- Shallow embedding of `Manager.Status`: each member host contributes one
status record at its own key (each goroutine sends exactly once, so the
channel delivers one record per member); `ServersOnline` counts the
successful health checks and `Healthy` holds iff it equals
`ServersTotal`. -/
def Manager.Status (servers : List ServerProbe) : NexusStatus :=
  let online := servers.countP (fun s => (checkServer s).1.online)
  { healthy := online == servers.length,
    serversOnline := online,
    serversTotal := servers.length,
    serverStatuses := servers.map (fun s => (s.id, (checkServer s).1)) }

lemma checkServer_online (s : ServerProbe) :
    (checkServer s).1.online = exceptOk s.healthCheck := by
  rcases s with ⟨i, h, r⟩
  cases h with
  | error e => simp [checkServer, exceptOk]
  | ok u => cases r <;> simp [checkServer, exceptOk]

/-- C2: the nexus is reported healthy iff every member's health check
succeeded; `GetResources` is invoked exactly for the hosts whose health
check succeeded; and a host whose health check succeeded is classified
online even when its telemetry fetch failed. -/
theorem status_healthy_iff (servers : List ServerProbe) :
    ((Manager.Status servers).healthy = true ↔
      ∀ s ∈ servers, exceptOk s.healthCheck = true) ∧
    (∀ s : ServerProbe, (checkServer s).2 = exceptOk s.healthCheck) ∧
    (∀ s : ServerProbe, exceptOk s.healthCheck = true → (checkServer s).1.online = true) ∧
    ((Manager.Status servers).serversOnline = (Manager.Status servers).serversTotal ↔
      ∀ s ∈ servers, exceptOk s.healthCheck = true) := by
  have hcount : (Manager.Status servers).serversOnline =
      servers.countP (fun s => exceptOk s.healthCheck) := by
    simp only [Manager.Status]
    congr 1
    funext s
    rw [checkServer_online]
  have hiff : servers.countP (fun s => exceptOk s.healthCheck) = servers.length ↔
      ∀ s ∈ servers, exceptOk s.healthCheck = true := List.countP_eq_length
  refine ⟨?_, ?_, ?_, ?_⟩
  · simp only [Manager.Status, beq_iff_eq]
    rw [show (servers.countP fun s => (checkServer s).1.online) =
        servers.countP (fun s => exceptOk s.healthCheck) by
      congr 1; funext s; rw [checkServer_online]]
    exact hiff
  · intro s
    rcases s with ⟨i, h, r⟩
    cases h with
    | error e => simp [checkServer, exceptOk]
    | ok u => cases r <;> simp [checkServer, exceptOk]
  · intro s hs
    rw [checkServer_online, hs]
  · rw [hcount]
    simp only [Manager.Status]
    exact hiff

/-- Concrete telemetry snapshot used by witnesses. -/
def resourceInfo0 : ResourceInfo :=
  { cpu := { cores := 4, usage := 0, model := "m", arch := "x86_64" },
    memory := { total := 8, available := 4, used := 4, usage := 0 },
    disk := { total := 100, available := 50, used := 50, usage := 0 },
    load := { load1 := 0, load5 := 0, load15 := 0 } }

/-- Healthy host whose telemetry fetch fails. -/
def srvA : ServerProbe :=
  { id := "a", healthCheck := .ok (), getResources := .error "telemetry down" }

/-- Unreachable host. -/
def srvB : ServerProbe :=
  { id := "b", healthCheck := .error "unreachable", getResources := .ok resourceInfo0 }

/-- Witness for `status_healthy_iff` on a two-host nexus where host `a` is
healthy with failing telemetry and host `b` is unreachable. -/
theorem status_healthy_iff_witness :
    ((Manager.Status [srvA, srvB]).healthy = true ↔
      ∀ s ∈ [srvA, srvB], exceptOk s.healthCheck = true) ∧
    (checkServer srvB).2 = exceptOk srvB.healthCheck ∧
    (checkServer srvA).1.online = true :=
  ⟨(status_healthy_iff [srvA, srvB]).1,
   (status_healthy_iff [srvA, srvB]).2.1 srvB,
   (status_healthy_iff [srvA, srvB]).2.2.1 srvA rfl⟩

/-! ## Distro capability sets: firewall rules
(`internal/server/debian.go:183-212` and the Rocky operations file, lines
162-208).  The embedding renders each `addFirewallRule` as the list of
shell commands it issues, in order. -/

/-- Helper: decimal rendering of a natural number (fuel-based, the fuel is
an upper bound on the digit count). -/
def natToStrAux : ℕ → ℕ → List Char
  | 0, _ => []
  | fuel + 1, n =>
    if n < 10 then [Char.ofNat (48 + n)]
    else natToStrAux fuel (n / 10) ++ [Char.ofNat (48 + n % 10)]

/-- Decimal rendering of an integer (model of `fmt.Sprintf("%d", _)`). -/
def intToStr (n : ℤ) : String :=
  match n with
  | .ofNat m => String.mk (natToStrAux (m + 1) m)
  | .negSucc m => "-" ++ String.mk (natToStrAux (m + 2) (m + 1))

/-- Firewall rule (`pkg.FirewallRule`; the `Comment` field is never read by
the rule-application code and is omitted). -/
structure FirewallRule where
  port : ℤ
  protocol : String
  source : String
  action : String
  deriving Repr, DecidableEq

/-- The single UFW command built by `DebianOperations.addFirewallRule`
(`debian.go:183-212`): the protocol string is spliced in verbatim, with no
special case for `"tcp/udp"`. -/
def DebianOperations.addFirewallRuleCmd (rule : FirewallRule) : String :=
  let action := if rule.action = "deny" then "deny" else "allow"
  let protocol := if rule.protocol = "" then "tcp" else rule.protocol
  if rule.source = "any" ∨ rule.source = "" then
    "ufw " ++ action ++ " " ++ intToStr rule.port ++ "/" ++ protocol
  else
    "ufw " ++ action ++ " from " ++ rule.source ++ " to any port " ++
      intToStr rule.port ++ " proto " ++ protocol

/-- Commands issued by `DebianOperations.addFirewallRule` for one rule:
exactly one UFW command. -/
def DebianOperations.addFirewallRule (rule : FirewallRule) : List String :=
  [DebianOperations.addFirewallRuleCmd rule]

/-- The firewalld command built by the non-recursive arm of
`RockyOperations.addFirewallRule` for a given resolved protocol. -/
def RockyOperations.firewallCmd (rule : FirewallRule) (protocol : String) : String :=
  if rule.source = "any" ∨ rule.source = "" then
    "firewall-cmd --add-port=" ++ intToStr rule.port ++ "/" ++ protocol
  else if rule.action = "deny" then
    "firewall-cmd --add-rich-rule=\x27rule family=\x22ipv4\x22 source address=\x22" ++
      rule.source ++ "\x22 port protocol=\x22" ++ protocol ++ "\x22 port=\x22" ++
      intToStr rule.port ++ "\x22 reject\x27"
  else
    "firewall-cmd --add-rich-rule=\x27rule family=\x22ipv4\x22 source address=\x22" ++
      rule.source ++ "\x22 port protocol=\x22" ++ protocol ++ "\x22 port=\x22" ++
      intToStr rule.port ++ "\x22 accept\x27"

/-- Commands issued by `RockyOperations.addFirewallRule` (Rocky operations
file, lines 162-208): a `"tcp/udp"` rule recurses once with protocol
`"tcp"` and once with `"udp"`, keeping port, source and action; otherwise
one firewalld command is issued. -/
def RockyOperations.addFirewallRule (rule : FirewallRule) : List String :=
  if h : (if rule.protocol = "" then "tcp" else rule.protocol) = "tcp/udp" then
    RockyOperations.addFirewallRule { rule with protocol := "tcp" } ++
      RockyOperations.addFirewallRule { rule with protocol := "udp" }
  else
    [RockyOperations.firewallCmd rule (if rule.protocol = "" then "tcp" else rule.protocol)]
termination_by (if (if rule.protocol = "" then "tcp" else rule.protocol) = "tcp/udp" then 1 else 0)
decreasing_by
  all_goals simp only [dite_eq_ite] at h
  all_goals simp [h]

/-- A `"tcp/udp"` rule open to any source. -/
def ruleTcpUdp : FirewallRule :=
  { port := 53, protocol := "tcp/udp", source := "any", action := "allow" }

/-- C7 counterexample: the Debian capability set does not expand a
`"tcp/udp"` rule — it issues a single UFW command with the protocol string
spliced in verbatim, not two rules. -/
theorem debian_tcpudp_not_expanded :
    DebianOperations.addFirewallRule ruleTcpUdp = ["ufw allow 53/tcp/udp"] ∧
    (DebianOperations.addFirewallRule ruleTcpUdp).length ≠ 2 := by
  constructor <;> decide

/-- C7 amended: the Rocky (RHEL-family) capability set expands a
`"tcp/udp"` rule into exactly two applied rules, one for tcp and one for
udp, with the same port, source and action; the Debian capability set does
not expand it and issues a single command. -/
theorem firewall_tcpudp_expansion (rule : FirewallRule) (h : rule.protocol = "tcp/udp") :
    RockyOperations.addFirewallRule rule =
      [RockyOperations.firewallCmd { rule with protocol := "tcp" } "tcp",
       RockyOperations.firewallCmd { rule with protocol := "udp" } "udp"] ∧
    DebianOperations.addFirewallRule rule =
      [DebianOperations.addFirewallRuleCmd rule] ∧
    (DebianOperations.addFirewallRule rule).length = 1 := by
  refine ⟨?_, rfl, rfl⟩
  have htcp : RockyOperations.addFirewallRule { rule with protocol := "tcp" } =
      [RockyOperations.firewallCmd { rule with protocol := "tcp" } "tcp"] := by
    rw [RockyOperations.addFirewallRule]
    simp +decide
  have hudp : RockyOperations.addFirewallRule { rule with protocol := "udp" } =
      [RockyOperations.firewallCmd { rule with protocol := "udp" } "udp"] := by
    rw [RockyOperations.addFirewallRule]
    simp +decide
  rw [RockyOperations.addFirewallRule]
  simp +decide [h, htcp, hudp]

/-- Witness for `firewall_tcpudp_expansion` at the concrete rule. -/
theorem firewall_tcpudp_expansion_witness :
    RockyOperations.addFirewallRule ruleTcpUdp =
      [RockyOperations.firewallCmd { ruleTcpUdp with protocol := "tcp" } "tcp",
       RockyOperations.firewallCmd { ruleTcpUdp with protocol := "udp" } "udp"] ∧
    DebianOperations.addFirewallRule ruleTcpUdp =
      [DebianOperations.addFirewallRuleCmd ruleTcpUdp] ∧
    (DebianOperations.addFirewallRule ruleTcpUdp).length = 1 :=
  firewall_tcpudp_expansion ruleTcpUdp rfl

/-! ## Distro detection (`ssh.go:218-249`, factory file lines 45-68)

`GetDistro` first parses the `ID=` field of `/etc/os-release`; on failure
it iterates a Go MAP from distro name to marker file — Go map iteration
order is unspecified and varies between runs, which the embedding makes
explicit by taking the iteration order as a parameter ranging over the
permutations of the entry list. -/

/-- Per-host probe environment for distro detection. -/
structure DistroEnv where
  osRelease : Except String Result
  fileTest : String → Except String Result

/-- The `distroFiles` map entries (`ssh.go:232-239`), in source-literal
order (which Go map iteration does NOT promise to follow). -/
def distroFiles : List (String × String) :=
  [("ubuntu", "/etc/lsb-release"), ("debian", "/etc/debian_version"),
   ("centos", "/etc/centos-release"), ("rhel", "/etc/redhat-release"),
   ("rocky", "/etc/rocky-release"), ("alpine", "/etc/alpine-release")]

/-- Did `test -f file` run without error and exit 0? -/
def testOk (env : DistroEnv) (file : String) : Bool :=
  match env.fileTest ("test -f " ++ file) with
  | .ok r => r.exitCode == 0
  | .error _ => false

/-- The marker-file fallback loop of `GetDistro`: first entry of the
iteration whose marker file exists wins; `"unknown"` if none does. -/
def fallbackDistro (env : DistroEnv) : List (String × String) → String
  | [] => "unknown"
  | (d, f) :: rest => if testOk env f then d else fallbackDistro env rest

/-- Parse the first `ID=` line of `/etc/os-release` output: strip the
prefix, trim surrounding double quotes, lower-case (`ssh.go:222-228`). -/
def parseOsReleaseID (out : String) : Option String :=
  (goLines out).findSome? (fun line =>
    if goHasPrefix line "ID=" then some (goToLower (trimQuotes (goDrop line 3))) else none)

/-- Shallow embedding of `SSHServer.GetDistro` (`ssh.go:218-249`),
parameterized by the map iteration order. -/
def SSHServer.GetDistro (order : List (String × String)) (env : DistroEnv) : String :=
  let fromOs : Option String :=
    match env.osRelease with
    | .ok r => if r.exitCode = 0 then parseOsReleaseID r.stdout else none
    | .error _ => none
  match fromOs with
  | some d => d
  | none => fallbackDistro env order

/-- Detection gate of `ServerFactory.CreateServerWithDistroDetection`
(factory file lines 45-68): detection runs only when no distribution was
declared. -/
def ServerFactory.detectIfNeeded (declared : String) (order : List (String × String))
    (env : DistroEnv) : String :=
  if declared = "" then SSHServer.GetDistro order env else declared

/-- Probe responses of a host with no readable `/etc/os-release` on which
BOTH the Ubuntu and the Debian marker files exist (as on a stock Ubuntu
system, which ships `/etc/lsb-release` and `/etc/debian_version`). -/
def distroEnvBoth : DistroEnv :=
  { osRelease := .ok { exitCode := 1, stdout := "", stderr := "No such file", duration := 0 },
    fileTest := fun c =>
      if c = "test -f /etc/lsb-release" then okOut ""
      else if c = "test -f /etc/debian_version" then okOut ""
      else .ok { exitCode := 1, stdout := "", stderr := "", duration := 0 } }

/-- The same map entries in another iteration order Go may produce. -/
def distroFilesSwapped : List (String × String) :=
  [("debian", "/etc/debian_version"), ("ubuntu", "/etc/lsb-release"),
   ("centos", "/etc/centos-release"), ("rhel", "/etc/redhat-release"),
   ("rocky", "/etc/rocky-release"), ("alpine", "/etc/alpine-release")]

/-- C8 counterexample: on the same probe responses, two legitimate Go map
iteration orders (both permutations of the map's entries) make the
fallback detect different families — detection is not a function of the
probe responses alone, refuting the fixed-priority-list determinism. -/
theorem getDistro_order_dependent : List.Perm distroFilesSwapped distroFiles ∧
    SSHServer.GetDistro distroFiles distroEnvBoth = "ubuntu" ∧
    SSHServer.GetDistro distroFilesSwapped distroEnvBoth = "debian" ∧
    "ubuntu" ≠ "debian" := by
  refine ⟨List.Perm.swap _ _ _, by decide, by decide, by decide⟩

lemma fallbackDistro_spec (env : DistroEnv) :
    ∀ (l : List (String × String)), (∀ p ∈ l, p.1 ≠ "unknown") →
      ((fallbackDistro env l = "unknown" ↔ ∀ p ∈ l, testOk env p.2 = false) ∧
       (∀ d, fallbackDistro env l = d → d ≠ "unknown" →
         ∃ p ∈ l, p.1 = d ∧ testOk env p.2 = true)) := by
  intro l
  induction l with
  | nil => simp [fallbackDistro]
  | cons p rest ih =>
    intro hkeys
    obtain ⟨d, f⟩ := p
    have hkey : d ≠ "unknown" := hkeys (d, f) (by simp)
    have hkeys' : ∀ q ∈ rest, q.1 ≠ "unknown" := fun q hq => hkeys q (by simp [hq])
    obtain ⟨ih1, ih2⟩ := ih hkeys'
    cases ht : testOk env f with
    | true =>
      constructor
      · simp only [fallbackDistro, ht, if_pos]
        constructor
        · intro hd; exact absurd hd hkey
        · intro hall
          have := hall (d, f) (by simp)
          simp [ht] at this
      · intro d2 hd2 _
        refine ⟨(d, f), by simp, ?_, ht⟩
        simpa [fallbackDistro, ht] using hd2
    | false =>
      constructor
      · simp only [fallbackDistro, ht, if_neg, Bool.false_eq_true, not_false_iff]
        rw [ih1]
        constructor
        · intro hall q hq
          rcases List.mem_cons.mp hq with hq | hq
          · rw [hq]; exact ht
          · exact hall q hq
        · intro hall q hq
          exact hall q (List.mem_cons_of_mem _ hq)
      · intro d2 hd2 hne
        have hd2' : fallbackDistro env rest = d2 := by
          simpa [fallbackDistro, ht] using hd2
        obtain ⟨q, hq, hq1, hq2⟩ := ih2 d2 hd2' hne
        exact ⟨q, List.mem_cons_of_mem _ hq, hq1, hq2⟩

/-- C8 amended: detection first probes the os-release `ID` field, and a
successfully parsed `ID` determines the result independently of the map
iteration order; on fallback, for ANY iteration order (any permutation of
the marker-file map entries), the result is `"unknown"` exactly when no
marker-file test succeeded, and any other result names an entry whose
marker-file test succeeded — but which succeeding entry wins depends on
the unspecified iteration order, so repeated detection on the same probe
responses need not agree; detection runs only for a host with no declared
distribution. -/
theorem getDistro_amended (order : List (String × String)) (env : DistroEnv)
    (hperm : List.Perm order distroFiles) :
    (∀ r d, env.osRelease = .ok r → r.exitCode = 0 → parseOsReleaseID r.stdout = some d →
      SSHServer.GetDistro order env = d) ∧
    (∀ r, env.osRelease = .ok r → r.exitCode = 0 → parseOsReleaseID r.stdout = none →
      ((SSHServer.GetDistro order env = "unknown" ↔
          ∀ p ∈ distroFiles, testOk env p.2 = false) ∧
        (∀ d, SSHServer.GetDistro order env = d → d ≠ "unknown" →
          ∃ p ∈ distroFiles, p.1 = d ∧ testOk env p.2 = true))) ∧
    (∀ declared, declared ≠ "" →
      ServerFactory.detectIfNeeded declared order env = declared) := by
  have hkeys : ∀ p ∈ order, p.1 ≠ "unknown" := by
    intro p hp
    have hp2 : p ∈ distroFiles := hperm.mem_iff.mp hp
    fin_cases hp2 <;> decide
  obtain ⟨hfb1, hfb2⟩ := fallbackDistro_spec env order hkeys
  refine ⟨?_, ?_, ?_⟩
  · intro r d hr he hid
    simp [SSHServer.GetDistro, hr, he, hid]
  · intro r hr he hid
    have hgd : SSHServer.GetDistro order env = fallbackDistro env order := by
      simp [SSHServer.GetDistro, hr, he, hid]
    rw [hgd]
    constructor
    · rw [hfb1]
      constructor
      · intro hall p hp
        exact hall p (hperm.mem_iff.mpr hp)
      · intro hall p hp
        exact hall p (hperm.mem_iff.mp hp)
    · intro d hd hne
      obtain ⟨p, hp, h1, h2⟩ := hfb2 d hd hne
      exact ⟨p, hperm.mem_iff.mp hp, h1, h2⟩
  · intro declared hdecl
    simp [ServerFactory.detectIfNeeded, hdecl]

/-- Host whose `/etc/os-release` is present and carries `ID=Ubuntu`. -/
def distroEnvID : DistroEnv :=
  { osRelease := okOut ("NAME=X" ++ "\n" ++ "ID=Ubuntu" ++ "\n" ++ "VERSION=1"),
    fileTest := fun _ => okOut "" }

/-- Witness for `getDistro_amended`: with a parsable `ID` field the result
is the lower-cased ID, and a declared distribution suppresses detection. -/
theorem getDistro_amended_witness :
    SSHServer.GetDistro distroFiles distroEnvID = "ubuntu" ∧
    ServerFactory.detectIfNeeded "rocky" distroFiles distroEnvID = "rocky" :=
  ⟨(getDistro_amended distroFiles distroEnvID (List.Perm.refl _)).1
      { exitCode := 0, stdout := "NAME=X" ++ "\n" ++ "ID=Ubuntu" ++ "\n" ++ "VERSION=1",
        stderr := "", duration := 0 } "ubuntu" rfl rfl (by decide),
   (getDistro_amended distroFiles distroEnvID (List.Perm.refl _)).2.2 "rocky" (by decide)⟩

/-! ## SSH hardening (`internal/server/debian.go:269-313`)

`HardenSSH` copies `sshd_config` to `sshd_config.backup`, applies five
in-place `sed` first-occurrence-per-line substitutions with literal
patterns, runs the `sshd -t` syntax check, and restarts the daemon only
when the check passed.  The embedding tracks the configuration file's
content through those shell commands: the substitutions are interpreted on
the file content and the syntax check is a validity oracle on the edited
content; the backup/sed/restart commands themselves execute successfully
at the transport level, which is the regime of the claim. -/

/-- Replace the first occurrence of `pat` in a char list, if any. -/
def replaceFirstAux (pat rep : List Char) : List Char → Option (List Char)
  | [] => none
  | c :: cs =>
    if listStartsWith (c :: cs) pat then some (rep ++ (c :: cs).drop pat.length)
    else
      match replaceFirstAux pat rep cs with
      | some out => some (c :: out)
      | none => none

/-- Effect of `sed s/pat/rep/` on one line: replace the first occurrence
of the (literal) pattern, leave the line unchanged when it does not
occur. -/
def sedSubLine (pat rep line : String) : String :=
  match replaceFirstAux pat.data rep.data line.data with
  | some out => String.mk out
  | none => line

/-- Join lines back with newlines (inverse of `goLines`). -/
def joinLines : List String → String
  | [] => ""
  | [l] => l
  | l :: ls => l ++ "\n" ++ joinLines ls

/-- Effect of `sed -i s/pat/rep/ file` on the file content: first
occurrence per line. -/
def sedSub (pat rep s : String) : String :=
  joinLines ((goLines s).map (sedSubLine pat rep))

/-- The five hardening substitutions of `HardenSSH` (`debian.go:276-282`),
in order: pattern and replacement (all patterns are regex-free
literals). -/
def hardeningSubs : List (String × String) :=
  [("#PermitRootLogin yes", "PermitRootLogin no"),
   ("#PasswordAuthentication yes", "PasswordAuthentication no"),
   ("#PubkeyAuthentication yes", "PubkeyAuthentication yes"),
   ("#Protocol 2", "Protocol 2"),
   ("#X11Forwarding yes", "X11Forwarding no")]

/-- Content of `sshd_config` after the hardening loop ran all five `sed`
commands. -/
def applyHardening (s : String) : String :=
  hardeningSubs.foldl (fun acc p => sedSub p.1 p.2 acc) s

/-- Observable outcome of one `HardenSSH` run: the final content of
`/etc/ssh/sshd_config`, the content of the backup file (if the backup step
ran), whether the `systemctl restart sshd` step was attempted, and the
returned error. -/
structure HardenOutcome where
  finalConfig : String
  backup : Option String
  restartAttempted : Bool
  error : Option String
  deriving Repr, DecidableEq

/-- Shallow embedding of `DebianOperations.HardenSSH`
(`debian.go:269-313`): backup, the five sed edits, then the `sshd -t`
check — whose failure returns the error immediately, BEFORE the restart
step, with the edited content still in place — and only on success the
restart. -/
def DebianOperations.HardenSSH (validConfig : String → Bool) (config0 : String) :
    HardenOutcome :=
  let backup := some config0
  let edited := applyHardening config0
  if validConfig edited then
    { finalConfig := edited, backup := backup, restartAttempted := true, error := none }
  else
    { finalConfig := edited, backup := backup, restartAttempted := false,
      error := some "SSH configuration test failed" }

/-- A one-line `sshd_config` that the first hardening substitution
rewrites. -/
def sshdConfig0 : String := "#PermitRootLogin yes"

/-- C5 counterexample: when the post-edit syntax check fails, the restart
step is indeed not attempted, but the configuration file does NOT keep its
original content — the sed edits were applied before the check and are
never rolled back, so the file now differs from the original (which
survives only in the backup copy). -/
theorem hardenSSH_failed_check_leaves_edits :
    (DebianOperations.HardenSSH (fun _ => false) sshdConfig0).restartAttempted = false ∧
    (DebianOperations.HardenSSH (fun _ => false) sshdConfig0).finalConfig ≠ sshdConfig0 ∧
    (DebianOperations.HardenSSH (fun _ => false) sshdConfig0).finalConfig =
      "PermitRootLogin no" ∧
    (DebianOperations.HardenSSH (fun _ => false) sshdConfig0).backup = some sshdConfig0 := by
  refine ⟨by decide, by decide, by decide, by decide⟩

/-- C5 amended: for every initial content and every validity oracle, if
the post-edit syntax check fails then `HardenSSH` returns an error without
attempting the daemon restart (so the running daemon keeps the prior
configuration), the configuration file is left holding the edited content,
and the original content is preserved only in the backup file. -/
theorem hardenSSH_aborts_before_restart (validConfig : String → Bool) (config0 : String)
    (h : validConfig (applyHardening config0) = false) :
    DebianOperations.HardenSSH validConfig config0 =
      { finalConfig := applyHardening config0, backup := some config0,
        restartAttempted := false, error := some "SSH configuration test failed" } := by
  simp [DebianOperations.HardenSSH, h]

/-- Witness for `hardenSSH_aborts_before_restart` at the concrete config
and an always-failing syntax check. -/
theorem hardenSSH_aborts_before_restart_witness :
    DebianOperations.HardenSSH (fun _ => false) sshdConfig0 =
      { finalConfig := applyHardening sshdConfig0, backup := some sshdConfig0,
        restartAttempted := false, error := some "SSH configuration test failed" } :=
  hardenSSH_aborts_before_restart (fun _ => false) sshdConfig0 rfl

end Mah
